import Mathlib

/-!
Verification of the casino-render scene-graph / animation / physics core.

The C++ sources are shallowly embedded over an arbitrary `LinearOrderedField α`
(instantiated at `ℚ` for concrete evaluations): `glm::vec3` becomes `Vec3 α`,
and each animation variant / physics routine becomes a pure Lean function that
takes the state it mutates and returns the updated state.
-/

set_option linter.unusedVariables false

namespace CasinoRender

/-- Shallow embedding of `glm::vec3`: a triple of field elements. -/
@[ext]
structure Vec3 (α : Type) where
  x : α
  y : α
  z : α
deriving DecidableEq

namespace Vec3

variable {α : Type} [LinearOrderedField α]

/-- Componentwise vector addition (`glm::vec3 + glm::vec3`). -/
def add (a b : Vec3 α) : Vec3 α := ⟨a.x + b.x, a.y + b.y, a.z + b.z⟩

instance : Add (Vec3 α) := ⟨add⟩

/-- Scalar multiplication (`c * glm::vec3`, or equivalently `glm::vec3 * c`). -/
def smul (c : α) (v : Vec3 α) : Vec3 α := ⟨c * v.x, c * v.y, c * v.z⟩

/-- Componentwise division by a scalar (`glm::vec3 / c`). -/
def sdiv (v : Vec3 α) (c : α) : Vec3 α := ⟨v.x / c, v.y / c, v.z / c⟩

/-- Squared Euclidean length.  A comparison `glm::length(v) < c` with `c ≥ 0`
is modelled as `sqLength v < c * c`, which is equivalent because squaring is
monotone on nonnegative reals. -/
def sqLength (v : Vec3 α) : α := v.x * v.x + v.y * v.y + v.z * v.z

end Vec3

section Animations

variable {α : Type} [LinearOrderedField α]

/-- Embedding of `BezierTranslationAnimation` (include/BezierAnimation.h).
`duration` and `elapsed` are the `Animation` base-class state (`duration()`
and `currentTime()`); `p0 … p3` are the control points `m_p0 … m_p3`.
The referenced `m_objectPosition` is passed to `applyAnimation` explicitly. -/
structure BezierTranslationAnimation (α : Type) where
  duration : α
  elapsed : α
  p0 : Vec3 α
  p1 : Vec3 α
  p2 : Vec3 α
  p3 : Vec3 α

namespace BezierTranslationAnimation

/-- `calculateCubicBezierPoint` from include/BezierAnimation.h, transcribed
with the source's intermediate variables. -/
def calculateCubicBezierPoint (b : BezierTranslationAnimation α) (t : α) : Vec3 α :=
  let t2 := 1 - t
  let t2_squared := t2 * t2
  let t2_cubed := t2_squared * t2
  let t_squared := t * t
  let t_cubed := t_squared * t
  Vec3.smul t2_cubed b.p0 + Vec3.smul (3 * t2_squared * t) b.p1 +
    Vec3.smul (3 * t2 * t_squared) b.p2 + Vec3.smul t_cubed b.p3

/-- `applyAnimation` from include/BezierAnimation.h: overwrite the referenced
position with the Bézier point at `t = currentTime() / duration()`.  The `dt`
argument is unused, exactly as in the source. -/
def applyAnimation (b : BezierTranslationAnimation α) (dt : α)
    (objectPosition : Vec3 α) : Vec3 α :=
  b.calculateCubicBezierPoint (b.elapsed / b.duration)

end BezierTranslationAnimation

/-- Embedding of `TranslationAnimation` (include/TranslationAnimation.h):
`perSecond` is `m_perSecond`; the referenced `m_objectPosition` is passed to
`applyAnimation` explicitly. -/
structure TranslationAnimation (α : Type) where
  duration : α
  perSecond : Vec3 α

namespace TranslationAnimation

/-- The `TranslationAnimation` constructor: `m_perSecond = totalPosition / duration`. -/
def make (duration : α) (totalPosition : Vec3 α) : TranslationAnimation α :=
  { duration := duration, perSecond := Vec3.sdiv totalPosition duration }

/-- `applyAnimation` from include/TranslationAnimation.h:
`m_objectPosition += m_perSecond * dt`.  The position reference is the only
state the source routine touches; the returned vector is its new value. -/
def applyAnimation (a : TranslationAnimation α) (dt : α)
    (objectPosition : Vec3 α) : Vec3 α :=
  objectPosition + Vec3.smul dt a.perSecond

end TranslationAnimation

/-- Modelled from the spec: `RotationAnimation` lives in Animation.h, which is
not in src (only its callers in main.cpp are).  Spec §4.2: a Rotation holds a
total rotation vector applied at constant angular rate `totalRotation/duration`. -/
structure RotationAnimation (α : Type) where
  duration : α
  totalRotation : Vec3 α

namespace RotationAnimation

/-- Modelled from the spec: `target.orientation += (totalRotation/duration) * dt`. -/
def applyAnimation (a : RotationAnimation α) (dt : α)
    (orientation : Vec3 α) : Vec3 α :=
  orientation + Vec3.smul dt (Vec3.sdiv a.totalRotation a.duration)

/-- Tick the rotation animation through a sequence of `dt`s. -/
def tickSeq (a : RotationAnimation α) (orientation : Vec3 α) (dts : List α) : Vec3 α :=
  dts.foldl (fun o dt => a.applyAnimation dt o) orientation

end RotationAnimation

end Animations

/-!
### Animator (sequencer)

Modelled from the spec: Animator.h / Animation.h are not in src (only their
callers in main.cpp are).  Spec §3/§4.3: an Animator is an ordered queue of
Animations, each tracking `elapsed` against a fixed `duration`; `tick(dt)`
loops while `dt > 0` and the cursor is valid, either consuming all of `dt`
into the current animation (when `dt < remaining`) or finishing the current
animation and carrying `dt - remaining` into the next one.

Only the time bookkeeping matters for the claims, so an animation is reduced
to its `(duration, elapsed)` pair.  The cursor is represented implicitly: the
finished animations (`elapsed = duration`) form a prefix of the list, and
`tickAnims` skips that prefix because their `remaining` is `0`.
-/

/-- The time state of one queued Animation: spec §3, "elapsed time (scalar,
starts at 0), fixed duration". -/
structure AnimTime where
  duration : ℚ
  elapsed : ℚ
deriving DecidableEq

/-- Modelled from the spec (§4.3, `Animator::tick(dt)`): while `dt > 0` and
the cursor is valid, either consume `dt` into the current animation or finish
it and carry the leftover into the next. -/
def tickAnims : List AnimTime → ℚ → List AnimTime
  | [], _ => []
  | a :: rest, dt =>
    if 0 < dt then
      if dt < a.duration - a.elapsed then
        { a with elapsed := a.elapsed + dt } :: rest
      else
        { a with elapsed := a.duration } :: tickAnims rest (dt - (a.duration - a.elapsed))
    else
      a :: rest

/-- Sum of the elapsed times over the whole queue. -/
def totalElapsed (l : List AnimTime) : ℚ := (l.map AnimTime.elapsed).sum

/-- Sum of the durations over the whole queue. -/
def totalDuration (l : List AnimTime) : ℚ := (l.map AnimTime.duration).sum

/-- Spec §3 invariant: `0 <= elapsed <= duration` for every queued animation. -/
def ValidAnims (l : List AnimTime) : Prop :=
  ∀ a ∈ l, 0 ≤ a.elapsed ∧ a.elapsed ≤ a.duration

instance (l : List AnimTime) : Decidable (ValidAnims l) :=
  inferInstanceAs (Decidable (∀ a ∈ l, _ ∧ _))

/-- A freshly assembled Animator: one animation per requested duration, all
elapsed times zero (spec §3: "elapsed time … starts at 0"). -/
def mkAnimator (durs : List ℚ) : List AnimTime :=
  durs.map fun d => { duration := d, elapsed := 0 }

/-- Feed a sequence of `tick(dt)` calls to an Animator. -/
def feedTicks (l : List AnimTime) (dts : List ℚ) : List AnimTime :=
  dts.foldl tickAnims l

/-!
### Physics: the dynamic-object state and the per-frame update (src/main.cpp)

`Phys.Object3D` embeds the kinematic facet of the C++ `Object3D` class
(include/Object3D.h): the fields read and written by the physics loop in
`main` (src/main.cpp lines 468-499) and by `snapToNearestRotation`
(src/main.cpp lines 358-369).  The mesh/child/render payload is not touched
by any of this code and is modelled separately (see `Scene` below).

`glm::radians`/`glm::degrees` multiply by `pi/180` and `180/pi`; `pi` is kept
as an explicit parameter so the definitions stay computable over any ordered
field (instantiating `α := ℝ`, `pi := Real.pi` recovers the C++ behavior, and
`α := ℚ` with any nonzero `pi` supports concrete evaluation).
-/

namespace Phys

variable {α : Type} [LinearOrderedField α]

/-- The kinematic facet of `Object3D` (include/Object3D.h): position,
orientation, velocity, angular velocity, acceleration, bounce coefficient
and the public `isMoving` flag. -/
structure Object3D (α : Type) where
  position : Vec3 α
  orientation : Vec3 α
  velocity : Vec3 α
  angularVelocity : Vec3 α
  acceleration : Vec3 α
  bounceCoeff : α
  isMoving : Bool
deriving DecidableEq

/-- Modelled from the spec: the body of `Object3D::tick` is in Object3D.cpp,
which is not in src.  Spec §4.1: `velocity += acceleration * dt;
position += velocity * dt; orientation += angularVelocity * dt`
(explicit Euler, velocity updated first). -/
def Object3D.tick (o : Object3D α) (dt : α) : Object3D α :=
  let velocity := o.velocity + Vec3.smul dt o.acceleration
  { o with
    velocity := velocity
    position := o.position + Vec3.smul dt velocity
    orientation := o.orientation + Vec3.smul dt o.angularVelocity }

/-- `glm::degrees`, componentwise `x * (180 / pi)`. -/
def degreesOf (pi : α) (v : Vec3 α) : Vec3 α := Vec3.smul (180 / pi) v

/-- `glm::radians`, componentwise `x * (pi / 180)`. -/
def radiansOf (pi : α) (v : Vec3 α) : Vec3 α := Vec3.smul (pi / 180) v

/-- C `round()`: round half away from zero (`roundf` semantics used by
main.cpp). -/
def cround [FloorRing α] (x : α) : ℤ :=
  if x < 0 then -⌊-x + 1/2⌋ else ⌊x + 1/2⌋

/-- `snapToNearestRotation` from src/main.cpp lines 358-369: convert the
orientation to degrees, round each axis to the nearest multiple of 90, and
convert back to radians. -/
def snapToNearestRotation [FloorRing α] (pi : α) (dice : Object3D α) : Object3D α :=
  let rot := degreesOf pi dice.orientation
  let rot : Vec3 α :=
    ⟨((cround (rot.x / 90) : ℤ) : α) * 90,
     ((cround (rot.y / 90) : ℤ) : α) * 90,
     ((cround (rot.z / 90) : ℤ) : α) * 90⟩
  { dice with orientation := radiansOf pi rot }

/-- The floor-collision / rest-detection policy from src/main.cpp lines
470-497, transcribed statement by statement (0.55 = 11/20, 0.7 = 7/10,
0.9 = 9/10, 0.1 = 1/10; `glm::length(v) < 0.1f` becomes
`sqLength v < (1/10) * (1/10)`). -/
def collisionResponse [FloorRing α] (pi : α) (dice : Object3D α) : Object3D α :=
  if dice.position.y ≤ 11/20 then
    let pos := dice.position
    let vel := dice.velocity
    let pos := { pos with y := (11/20 : α) }
    let vel := { vel with y := vel.y * (-dice.bounceCoeff) }
    let vel := { vel with x := vel.x * (7/10) }
    let vel := { vel with z := vel.z * (7/10) }
    let dice := { dice with angularVelocity := Vec3.smul (9/10) dice.angularVelocity }
    let dice := { dice with position := pos, velocity := vel }
    if Vec3.sqLength vel < (1/10) * (1/10) then
      let dice := { dice with velocity := (⟨0, 0, 0⟩ : Vec3 α) }
      let rotVel := dice.angularVelocity
      let dice := { dice with angularVelocity := Vec3.smul (9/10) rotVel }
      if Vec3.sqLength rotVel < (1/10) * (1/10) then
        let dice := snapToNearestRotation pi dice
        { dice with isMoving := false }
      else dice
    else dice
  else dice

/-- One iteration of the per-object physics loop in `main`
(src/main.cpp lines 468-499): the integration step and collision policy run
only when `dice.isMoving && throwDice`. -/
def frameStep [FloorRing α] (pi : α) (throwDice : Bool) (dt : α)
    (dice : Object3D α) : Object3D α :=
  if dice.isMoving && throwDice then collisionResponse pi (dice.tick dt) else dice

end Phys

/-!
### Scene graph: child management (include/Object3D.h) and the Assimp
asset-import adapter (src/AssimpImport.cpp)

`Scene.Object3D` embeds the tree facet of the C++ `Object3D` class: the owned
mesh list, the import-time base transform, and the ordered child list.  The
mesh payload and the transform are abstracted as type parameters `μ` and `τ`
(their contents are produced by the out-of-scope importer/renderer
collaborators and are never inspected by the code under verification).
-/

namespace Scene

/-- The tree facet of `Object3D` (include/Object3D.h): `m_meshes`,
`m_baseTransform` and the ordered `m_children`. -/
inductive Object3D (μ τ : Type) : Type where
  | mk (meshes : List μ) (baseTransform : τ) (children : List (Object3D μ τ))

variable {μ τ ν σ : Type}

/-- The `m_meshes` field. -/
def Object3D.meshes : Object3D μ τ → List μ
  | .mk m _ _ => m

/-- The `m_baseTransform` field. -/
def Object3D.baseTransform : Object3D μ τ → τ
  | .mk _ t _ => t

/-- The `m_children` field. -/
def Object3D.children : Object3D μ τ → List (Object3D μ τ)
  | .mk _ _ c => c

/-- `Object3D::numberOfChildren` (include/Object3D.h). -/
def Object3D.numberOfChildren (o : Object3D μ τ) : ℕ := o.children.length

/-- Modelled from the spec: the body of `Object3D::getChild` is in
Object3D.cpp, which is not in src.  Spec §4.1: fails with an out-of-range
error when `index >= numberOfChildren()`, otherwise returns the index-th
child (identity-addressed, here by index into the ordered child list). -/
def Object3D.getChild (o : Object3D μ τ) (index : ℕ) : Except String (Object3D μ τ) :=
  if h : index < o.numberOfChildren then
    .ok (o.children.get ⟨index, h⟩)
  else
    .error "Object3D::getChild: index out of range"

/-- Modelled from the spec: the body of `Object3D::addChild` is in
Object3D.cpp, which is not in src.  Spec §4.1: transfers the child into this
node's child list, appended at the end. -/
def Object3D.addChild (o : Object3D μ τ) (child : Object3D μ τ) : Object3D μ τ :=
  .mk o.meshes o.baseTransform (o.children ++ [child])

/-- One node of the imported asset hierarchy (`aiNode`): its mesh references
(already resolved to payloads of type `μ`), its transformation, and its
children. -/
inductive AiNode (μ τ : Type) : Type where
  | mk (meshes : List μ) (transformation : τ) (children : List (AiNode μ τ))

/-- The meshes of an `aiNode`. -/
def AiNode.meshes : AiNode μ τ → List μ
  | .mk m _ _ => m

/-- The transformation of an `aiNode`. -/
def AiNode.transformation : AiNode μ τ → τ
  | .mk _ t _ => t

/-- The children of an `aiNode`. -/
def AiNode.children : AiNode μ τ → List (AiNode μ τ)
  | .mk _ _ c => c

/-- The imported `aiScene`: its root node. -/
structure AiScene (μ τ : Type) : Type where
  root : AiNode μ τ

mutual

/-- `processAssimpNode` from src/AssimpImport.cpp: convert each of the node's
meshes (`fromMesh` stands for the `fromAssimpMesh(scene->mMeshes[...])` call,
which only touches importer data), transpose/convert the node transformation
(`fromTransform` stands for the `baseTransform[i][j] = mTransformation[j][i]`
loop), then recursively convert and attach every child in order. -/
def processAssimpNode (fromMesh : μ → ν) (fromTransform : τ → σ) :
    AiNode μ τ → Object3D ν σ
  | .mk meshes transformation children =>
    .mk (meshes.map fromMesh) (fromTransform transformation)
      (processAssimpChildren fromMesh fromTransform children)

/-- The `for (i < node->mNumChildren) parent.addChild(processAssimpNode …)`
loop of src/AssimpImport.cpp. -/
def processAssimpChildren (fromMesh : μ → ν) (fromTransform : τ → σ) :
    List (AiNode μ τ) → List (Object3D ν σ)
  | [] => []
  | n :: ns =>
    processAssimpNode fromMesh fromTransform n ::
      processAssimpChildren fromMesh fromTransform ns

end

/-- `assimpLoad` from src/AssimpImport.cpp lines 76-98.  The call
`importer.ReadFile(path, options)` is modelled by its result `readFile`
(`none` when the importer cannot parse the file, in which case
`importer.GetErrorString()` is the diagnostic `errorString`); on success the
scene root is processed into an `Object3D` tree. -/
def assimpLoad (readFile : Option (AiScene μ τ)) (errorString : String)
    (fromMesh : μ → ν) (fromTransform : τ → σ) : Except String (Object3D ν σ) :=
  match readFile with
  | none => .error ("Error loading assimp file: " ++ errorString)
  | some scene => .ok (processAssimpNode fromMesh fromTransform scene.root)

end Scene

/-!
### Concrete states used by the witness and counterexample theorems
-/

/-- A die whose damped collision velocity falls below the `0.1` rest
threshold: `|(0, 1/20, 0)| < 1/10`. -/
def slowDie : Phys.Object3D ℚ :=
  { position := ⟨0, 1/2, 0⟩
    orientation := ⟨0, 0, 0⟩
    velocity := ⟨0, -1/10, 0⟩
    angularVelocity := ⟨1, 0, 0⟩
    acceleration := ⟨0, 0, 0⟩
    bounceCoeff := 1/2
    isMoving := true }

/-- The spec's collision-response test instance: `position.y = 0.5`,
`velocity = (1, -2, 0)`, `bounceCoeff = 0.5`. -/
def bouncingDie : Phys.Object3D ℚ :=
  { position := ⟨0, 1/2, 0⟩
    orientation := ⟨0, 0, 0⟩
    velocity := ⟨1, -2, 0⟩
    angularVelocity := ⟨1, 1, 1⟩
    acceleration := ⟨0, -49/5, 0⟩
    bounceCoeff := 1/2
    isMoving := true }

/-- A die oriented at (44°, 91°, 179°), with the conversion constant `pi`
taken as `3` for exact rational evaluation. -/
def snapDie : Phys.Object3D ℚ :=
  { position := ⟨0, 0, 0⟩
    orientation := Phys.radiansOf 3 ⟨44, 91, 179⟩
    velocity := ⟨0, 0, 0⟩
    angularVelocity := ⟨0, 0, 0⟩
    acceleration := ⟨0, 0, 0⟩
    bounceCoeff := 0
    isMoving := true }

/-- A die at rest: `isMoving = false`. -/
def restingDie : Phys.Object3D ℚ :=
  { position := ⟨1, 11/20, 2⟩
    orientation := ⟨0, 0, 0⟩
    velocity := ⟨0, 0, 0⟩
    angularVelocity := ⟨0, 0, 0⟩
    acceleration := ⟨0, -49/5, 0⟩
    bounceCoeff := 1/2
    isMoving := false }

/-!
### Helper lemmas
-/

namespace Vec3

variable {α : Type} [LinearOrderedField α]

@[simp] theorem add_x (a b : Vec3 α) : (a + b).x = a.x + b.x := rfl
@[simp] theorem add_y (a b : Vec3 α) : (a + b).y = a.y + b.y := rfl
@[simp] theorem add_z (a b : Vec3 α) : (a + b).z = a.z + b.z := rfl
@[simp] theorem smul_x (c : α) (v : Vec3 α) : (smul c v).x = c * v.x := rfl
@[simp] theorem smul_y (c : α) (v : Vec3 α) : (smul c v).y = c * v.y := rfl
@[simp] theorem smul_z (c : α) (v : Vec3 α) : (smul c v).z = c * v.z := rfl
@[simp] theorem sdiv_x (v : Vec3 α) (c : α) : (sdiv v c).x = v.x / c := rfl
@[simp] theorem sdiv_y (v : Vec3 α) (c : α) : (sdiv v c).y = v.y / c := rfl
@[simp] theorem sdiv_z (v : Vec3 α) (c : α) : (sdiv v c).z = v.z / c := rfl

end Vec3

@[simp] theorem totalElapsed_nil : totalElapsed [] = 0 := rfl

@[simp] theorem totalElapsed_cons (a : AnimTime) (l : List AnimTime) :
    totalElapsed (a :: l) = a.elapsed + totalElapsed l := by
  simp [totalElapsed]

@[simp] theorem totalDuration_nil : totalDuration [] = 0 := rfl

@[simp] theorem totalDuration_cons (a : AnimTime) (l : List AnimTime) :
    totalDuration (a :: l) = a.duration + totalDuration l := by
  simp [totalDuration]

theorem totalElapsed_le_totalDuration {l : List AnimTime} (h : ValidAnims l) :
    totalElapsed l ≤ totalDuration l := by
  induction l with
  | nil => simp
  | cons a rest ih =>
    have ha := h a (List.mem_cons_self a rest)
    have hrest : ValidAnims rest := fun b hb => h b (List.mem_cons_of_mem a hb)
    simp only [totalElapsed_cons, totalDuration_cons]
    have := ih hrest
    linarith [ha.2]

theorem totalDuration_tickAnims (l : List AnimTime) (dt : ℚ) :
    totalDuration (tickAnims l dt) = totalDuration l := by
  induction l generalizing dt with
  | nil => rfl
  | cons a rest ih =>
    simp only [tickAnims]
    split_ifs <;> simp [ih]

theorem validAnims_tickAnims {l : List AnimTime} {dt : ℚ}
    (h : ValidAnims l) (hdt : 0 ≤ dt) : ValidAnims (tickAnims l dt) := by
  induction l generalizing dt with
  | nil => simpa [tickAnims] using h
  | cons a rest ih =>
    have ha := h a (List.mem_cons_self a rest)
    have hrest : ValidAnims rest := fun b hb => h b (List.mem_cons_of_mem a hb)
    simp only [tickAnims]
    split_ifs with h0 hlt
    · intro b hb
      rcases List.mem_cons.mp hb with hb | hb
      · subst hb
        constructor
        · simpa using by linarith [ha.1]
        · simpa using by linarith
      · exact hrest b hb
    · intro b hb
      rcases List.mem_cons.mp hb with hb | hb
      · subst hb
        refine ⟨?_, by simp⟩
        simpa using by linarith [ha.1, ha.2]
      · exact ih hrest (by linarith [not_lt.mp hlt]) b hb
    · exact h

theorem totalElapsed_tickAnims {l : List AnimTime} {dt : ℚ}
    (h : ValidAnims l) (hdt : 0 ≤ dt) :
    totalElapsed (tickAnims l dt) = min (totalElapsed l + dt) (totalDuration l) := by
  induction l generalizing dt with
  | nil =>
    simp only [tickAnims, totalElapsed_nil, totalDuration_nil, zero_add]
    exact (min_eq_right hdt).symm
  | cons a rest ih =>
    have ha := h a (List.mem_cons_self a rest)
    have hrest : ValidAnims rest := fun b hb => h b (List.mem_cons_of_mem a hb)
    have hED : totalElapsed rest ≤ totalDuration rest :=
      totalElapsed_le_totalDuration hrest
    simp only [tickAnims]
    split_ifs with h0 hlt
    · -- dt fits inside the current animation
      simp only [totalElapsed_cons, totalDuration_cons]
      have : a.elapsed + dt + totalElapsed rest ≤ a.duration + totalDuration rest := by
        linarith
      rw [min_eq_left (by linarith)]
      ring
    · -- the current animation finishes; the leftover carries over
      have hrem : a.duration - a.elapsed ≤ dt := not_lt.mp hlt
      have hrec := @ih (dt - (a.duration - a.elapsed)) hrest (by linarith)
      simp only [totalElapsed_cons, totalDuration_cons, hrec]
      rcases le_total (totalElapsed rest + (dt - (a.duration - a.elapsed)))
          (totalDuration rest) with hc | hc
      · rw [min_eq_left hc, min_eq_left (by linarith)]
        ring
      · rw [min_eq_right hc, min_eq_right (by linarith)]
    · -- dt = 0: nothing changes
      have : dt = 0 := le_antisymm (not_lt.mp h0) hdt
      subst this
      simp only [totalElapsed_cons, totalDuration_cons, add_zero]
      have : a.elapsed + totalElapsed rest ≤ a.duration + totalDuration rest := by
        linarith [ha.2]
      exact (min_eq_left this).symm

theorem validAnims_feedTicks {l : List AnimTime} {dts : List ℚ}
    (h : ValidAnims l) (hdts : ∀ t ∈ dts, 0 ≤ t) : ValidAnims (feedTicks l dts) := by
  induction dts generalizing l with
  | nil => simpa [feedTicks] using h
  | cons dt dts ih =>
    have h0 : (0:ℚ) ≤ dt := hdts dt (List.mem_cons_self dt dts)
    have hdts' : ∀ t ∈ dts, (0:ℚ) ≤ t := fun t ht => hdts t (List.mem_cons_of_mem dt ht)
    simpa [feedTicks] using ih (validAnims_tickAnims h h0) hdts'

theorem totalElapsed_feedTicks {l : List AnimTime} {dts : List ℚ}
    (h : ValidAnims l) (hdts : ∀ t ∈ dts, 0 ≤ t) :
    totalElapsed (feedTicks l dts) = min (totalElapsed l + dts.sum) (totalDuration l) := by
  induction dts generalizing l with
  | nil =>
    simp only [feedTicks, List.foldl_nil, List.sum_nil, add_zero]
    exact (min_eq_left (totalElapsed_le_totalDuration h)).symm
  | cons dt dts ih =>
    have h0 : (0:ℚ) ≤ dt := hdts dt (List.mem_cons_self dt dts)
    have hdts' : ∀ t ∈ dts, (0:ℚ) ≤ t := fun t ht => hdts t (List.mem_cons_of_mem dt ht)
    have hsum : (0:ℚ) ≤ dts.sum := List.sum_nonneg hdts'
    have hstep : feedTicks l (dt :: dts) = feedTicks (tickAnims l dt) dts := by
      simp [feedTicks]
    rw [hstep, ih (validAnims_tickAnims h h0) hdts', totalDuration_tickAnims,
      totalElapsed_tickAnims h h0, List.sum_cons]
    rcases le_total (totalElapsed l + dt) (totalDuration l) with hc | hc
    · rw [min_eq_left hc]
      ring_nf
    · rw [min_eq_right hc, min_eq_right (by linarith),
        min_eq_right (by linarith)]

/-!
### Claim theorems
-/

section ClaimAnimations

variable {α : Type} [LinearOrderedField α]

theorem rotationTickSeq_sum (a : RotationAnimation α) (o : Vec3 α) (dts : List α) :
    a.tickSeq o dts = o + Vec3.smul dts.sum (Vec3.sdiv a.totalRotation a.duration) := by
  induction dts generalizing o with
  | nil => ext <;> simp [RotationAnimation.tickSeq]
  | cons dt dts ih =>
    simp only [RotationAnimation.tickSeq, List.foldl_cons] at ih ⊢
    rw [ih]
    ext <;> simp [RotationAnimation.applyAnimation, List.sum_cons] <;> ring

/-- Claim C3: a Rotation Animation of duration `D` and total rotation `R`,
ticked with any sequence of positive `dt`s summing exactly to `D`, increases
the target orientation by exactly `R`, independently of the chunking. -/
theorem rotation_chunking_independent (a : RotationAnimation α)
    (hD : a.duration ≠ 0) (orientation : Vec3 α)
    (dts : List α) (hpos : ∀ t ∈ dts, 0 < t) (hsum : dts.sum = a.duration) :
    a.tickSeq orientation dts = orientation + a.totalRotation := by
  rw [rotationTickSeq_sum, hsum]
  ext <;> simp [Vec3.smul, Vec3.sdiv] <;> field_simp

/-- Witness for C3: duration 2, total rotation (1,2,3), ticks [1/2, 3/2]. -/
theorem rotation_chunking_independent_witness :
    ((⟨2, ⟨1, 2, 3⟩⟩ : RotationAnimation ℚ).duration ≠ 0) ∧
    (∀ t ∈ ([1/2, 3/2] : List ℚ), 0 < t) ∧
    (([1/2, 3/2] : List ℚ).sum = (⟨2, ⟨1, 2, 3⟩⟩ : RotationAnimation ℚ).duration) ∧
    (⟨2, ⟨1, 2, 3⟩⟩ : RotationAnimation ℚ).tickSeq ⟨0, 0, 0⟩ [1/2, 3/2]
      = (⟨0, 0, 0⟩ : Vec3 ℚ) + ⟨1, 2, 3⟩ :=
  ⟨by norm_num, by norm_num, by norm_num,
    rotation_chunking_independent _ (by norm_num) _ _ (by norm_num) (by norm_num)⟩

/-- Claim C4: the Bézier `applyAnimation` is an absolute set from the
accumulated elapsed time: the result does not depend on the `dt` argument nor
on the previous target position, so re-applying at the same elapsed time
yields the same position (idempotence), and the position assigned is always
`B(elapsed/duration)`. -/
theorem bezier_apply_idempotent (b : BezierTranslationAnimation α)
    (dt₁ dt₂ : α) (pos₁ pos₂ : Vec3 α) :
    b.applyAnimation dt₁ pos₁ = b.applyAnimation dt₂ pos₂ ∧
    b.applyAnimation dt₁ (b.applyAnimation dt₂ pos₂) = b.applyAnimation dt₂ pos₂ ∧
    b.applyAnimation dt₁ pos₁ = b.calculateCubicBezierPoint (b.elapsed / b.duration) :=
  ⟨rfl, rfl, rfl⟩

/-- Claim C5: the cubic Bézier evaluation returns exactly `P0` at `t = 0`
and exactly `P3` at `t = 1` (the parameter reached when elapsed equals
duration), for every choice of control points. -/
theorem bezier_boundary (b : BezierTranslationAnimation α) :
    b.calculateCubicBezierPoint 0 = b.p0 ∧ b.calculateCubicBezierPoint 1 = b.p3 := by
  refine ⟨?_, ?_⟩ <;> ext <;>
    simp [BezierTranslationAnimation.calculateCubicBezierPoint]

/-- Claim C6: a Translation Animation constructed with duration `D > 0` and
total displacement `T` adds exactly `(T/D) * dt` to each component of the
referenced position on every `applyAnimation(dt)` call (the referenced
position is the only state the routine touches). -/
theorem translation_rate (duration : α) (hD : 0 < duration)
    (totalPosition : Vec3 α) (dt : α) (pos : Vec3 α) :
    ((TranslationAnimation.make duration totalPosition).applyAnimation dt pos).x
        = pos.x + totalPosition.x / duration * dt ∧
    ((TranslationAnimation.make duration totalPosition).applyAnimation dt pos).y
        = pos.y + totalPosition.y / duration * dt ∧
    ((TranslationAnimation.make duration totalPosition).applyAnimation dt pos).z
        = pos.z + totalPosition.z / duration * dt := by
  refine ⟨?_, ?_, ?_⟩ <;>
    simp [TranslationAnimation.make, TranslationAnimation.applyAnimation] <;> ring

/-- Witness for C6: duration 2, total displacement (4,6,8), dt = 1/2. -/
theorem translation_rate_witness :
    (0 : ℚ) < 2 ∧
    (((TranslationAnimation.make (2:ℚ) ⟨4, 6, 8⟩).applyAnimation (1/2) ⟨1, 1, 1⟩).x
        = 1 + 4 / 2 * (1/2) ∧
     ((TranslationAnimation.make (2:ℚ) ⟨4, 6, 8⟩).applyAnimation (1/2) ⟨1, 1, 1⟩).y
        = 1 + 6 / 2 * (1/2) ∧
     ((TranslationAnimation.make (2:ℚ) ⟨4, 6, 8⟩).applyAnimation (1/2) ⟨1, 1, 1⟩).z
        = 1 + 8 / 2 * (1/2)) :=
  ⟨by norm_num, translation_rate 2 (by norm_num) ⟨4, 6, 8⟩ (1/2) ⟨1, 1, 1⟩⟩

end ClaimAnimations

theorem totalElapsed_mkAnimator (durs : List ℚ) : totalElapsed (mkAnimator durs) = 0 := by
  induction durs with
  | nil => rfl
  | cons d ds ih => simpa [mkAnimator, totalElapsed_cons] using ih

theorem totalDuration_mkAnimator (durs : List ℚ) :
    totalDuration (mkAnimator durs) = durs.sum := by
  induction durs with
  | nil => rfl
  | cons d ds ih => simpa [mkAnimator, totalDuration_cons] using ih

/-- Claim C1: for every Animator (any list of nonnegative durations) and every
sequence of `tick(dt)` calls with `dt ≥ 0`, the sum of elapsed time across
all queued animations equals `min(total dt fed, sum of durations)` — leftover
`dt` carries over into the next animation, no time is lost or double-counted,
and every animation keeps `0 ≤ elapsed ≤ duration` (so the total never
exceeds the sum of durations and no animation is over-ticked). -/
theorem animator_time_conservation (durs : List ℚ) (hdurs : ∀ d ∈ durs, 0 ≤ d)
    (dts : List ℚ) (hdts : ∀ t ∈ dts, 0 ≤ t) :
    totalElapsed (feedTicks (mkAnimator durs) dts) = min dts.sum durs.sum ∧
    ValidAnims (feedTicks (mkAnimator durs) dts) := by
  have hvalid : ValidAnims (mkAnimator durs) := by
    intro a ha
    simp only [mkAnimator, List.mem_map] at ha
    obtain ⟨d, hd, rfl⟩ := ha
    exact ⟨le_refl 0, hdurs d hd⟩
  refine ⟨?_, validAnims_feedTicks hvalid hdts⟩
  rw [totalElapsed_feedTicks hvalid hdts, totalElapsed_mkAnimator,
    totalDuration_mkAnimator, zero_add]

/-- Witness for C1 at the spec's test vector: durations [1, 2, 3/2] ticked
with [1/2, 1/2, 1/2, 1/2, 10] (total 12 fed, 9/2 available). -/
theorem animator_time_conservation_witness :
    (∀ d ∈ ([1, 2, 3/2] : List ℚ), 0 ≤ d) ∧
    (∀ t ∈ ([1/2, 1/2, 1/2, 1/2, 10] : List ℚ), 0 ≤ t) ∧
    (totalElapsed (feedTicks (mkAnimator [1, 2, 3/2]) [1/2, 1/2, 1/2, 1/2, 10])
        = min ([1/2, 1/2, 1/2, 1/2, 10] : List ℚ).sum ([1, 2, 3/2] : List ℚ).sum ∧
      ValidAnims (feedTicks (mkAnimator [1, 2, 3/2]) [1/2, 1/2, 1/2, 1/2, 10])) :=
  ⟨by norm_num, by norm_num, animator_time_conservation _ (by norm_num) _ (by norm_num)⟩

section ClaimPhysics

variable {α : Type} [LinearOrderedField α]

/-- Claim C2 as frozen is false: a dynamic die at `position.y = 1/2` with
velocity `(0, -1/10, 0)` and `bounceCoeff = 1/2` satisfies the claim's
hypothesis `position.y ≤ 0.55`, and the claim predicts
`velocity.y = (-1/10) * (-1/2) = 1/20` and angular velocity scaled by `9/10`
after one collision-policy application; the code instead enters the
rest-detection branch (`|damped velocity| = 1/20 < 1/10`), zeroes the whole
velocity and damps the angular velocity a second time (factor `81/100`).
`pi = 3` is arbitrary: the orientation-snapping branch is not reached here
(the once-damped angular speed `9/10` is above the `1/10` threshold), so the
result does not involve `pi` at all. -/
theorem collision_small_speed_cex :
    slowDie.position.y ≤ (11/20 : ℚ) ∧
    (Phys.collisionResponse (3:ℚ) slowDie).velocity.y = 0 ∧
    slowDie.velocity.y * (-slowDie.bounceCoeff) = 1/20 ∧
    (0 : ℚ) ≠ 1/20 ∧
    (Phys.collisionResponse (3:ℚ) slowDie).angularVelocity.x = 81/100 ∧
    (Vec3.smul (9/10) slowDie.angularVelocity).x = 9/10 ∧
    (81/100 : ℚ) ≠ 9/10 := by
  refine ⟨by norm_num [slowDie], ?_, by norm_num [slowDie], by norm_num, ?_,
    by norm_num [slowDie, Vec3.smul], by norm_num⟩ <;>
    norm_num [Phys.collisionResponse, slowDie, Vec3.sqLength, Vec3.smul]

/-- Claim C2 (amended): for every object with `position.y ≤ 0.55` whose
damped velocity `(0.7·vx, -bounceCoeff·vy, 0.7·vz)` is not below the `0.1`
rest threshold, one application of the collision policy clamps `position.y`
to `0.55`, multiplies `velocity.y` by `-bounceCoeff`, multiplies `velocity.x`
and `velocity.z` by `0.7`, multiplies the angular velocity by `0.9`, and
changes nothing else; in particular the spec's instance
(`position.y = 0.5`, `velocity = (1,-2,0)`, `bounceCoeff = 0.5`) ends with
`position.y = 0.55`, `velocity.y = 1`, `velocity.x = 0.7`. -/
theorem collision_response_formula [FloorRing α] (pi : α) (o : Phys.Object3D α)
    (hy : o.position.y ≤ 11/20)
    (hspeed : ¬ Vec3.sqLength
        (⟨o.velocity.x * (7/10), o.velocity.y * (-o.bounceCoeff),
          o.velocity.z * (7/10)⟩ : Vec3 α) < (1/10) * (1/10)) :
    Phys.collisionResponse pi o =
      { o with
        position := { o.position with y := (11/20 : α) }
        velocity := ⟨o.velocity.x * (7/10), o.velocity.y * (-o.bounceCoeff),
          o.velocity.z * (7/10)⟩
        angularVelocity := Vec3.smul (9/10) o.angularVelocity } := by
  simp only [Phys.collisionResponse]
  rw [if_pos hy, if_neg hspeed]

/-- Witness for C2 (amended) at the spec's instance: `position.y = 1/2`,
`velocity = (1,-2,0)`, `bounceCoeff = 1/2`; the damped velocity
`(7/10, 1, 0)` is far above the rest threshold, and the result has
`position.y = 11/20`, `velocity = (7/10, 1, 0)`. -/
theorem collision_response_formula_witness :
    bouncingDie.position.y ≤ (11/20 : ℚ) ∧
    (¬ Vec3.sqLength
        (⟨bouncingDie.velocity.x * (7/10),
          bouncingDie.velocity.y * (-bouncingDie.bounceCoeff),
          bouncingDie.velocity.z * (7/10)⟩ : Vec3 ℚ) < (1/10) * (1/10)) ∧
    Phys.collisionResponse (3:ℚ) bouncingDie =
      { bouncingDie with
        position := { bouncingDie.position with y := (11/20 : ℚ) }
        velocity := ⟨bouncingDie.velocity.x * (7/10),
          bouncingDie.velocity.y * (-bouncingDie.bounceCoeff),
          bouncingDie.velocity.z * (7/10)⟩
        angularVelocity := Vec3.smul (9/10) bouncingDie.angularVelocity } :=
  ⟨by norm_num [bouncingDie],
   by norm_num [bouncingDie, Vec3.sqLength],
   collision_response_formula 3 bouncingDie (by norm_num [bouncingDie])
     (by norm_num [bouncingDie, Vec3.sqLength])⟩

theorem degreesOf_radiansOf {pi : α} (hpi : pi ≠ 0) (v : Vec3 α) :
    Phys.degreesOf pi (Phys.radiansOf pi v) = v := by
  ext <;> simp [Phys.degreesOf, Phys.radiansOf] <;> field_simp <;> ring

theorem cround_eq_of_bounds [FloorRing α] (x : α) (k : ℤ) (hx : 0 ≤ x)
    (h1 : (k : α) ≤ x + 1/2) (h2 : x + 1/2 < k + 1) : Phys.cround x = k := by
  unfold Phys.cround
  rw [if_neg (not_lt.mpr hx), Int.floor_eq_iff]
  exact ⟨h1, h2⟩

/-- Claim C7: the rest-state snap converts the orientation to degrees, rounds
each Euler angle independently to the nearest multiple of 90 degrees, and
converts back to radians; in particular an orientation of (44°, 91°, 179°)
becomes (0°, 90°, 180°).  `pi` is the conversion constant of
`glm::degrees`/`glm::radians`, arbitrary but nonzero. -/
theorem snap_to_nearest_90 [FloorRing α] (pi : α) (hpi : pi ≠ 0) :
    (∀ (o : Phys.Object3D α) (d : Vec3 α), o.orientation = Phys.radiansOf pi d →
      (Phys.snapToNearestRotation pi o).orientation =
        Phys.radiansOf pi
          ⟨((Phys.cround (d.x / 90) : ℤ) : α) * 90,
           ((Phys.cround (d.y / 90) : ℤ) : α) * 90,
           ((Phys.cround (d.z / 90) : ℤ) : α) * 90⟩) ∧
    (∀ o : Phys.Object3D α, o.orientation = Phys.radiansOf pi ⟨44, 91, 179⟩ →
      (Phys.snapToNearestRotation pi o).orientation = Phys.radiansOf pi ⟨0, 90, 180⟩) := by
  have key : ∀ (o : Phys.Object3D α) (d : Vec3 α), o.orientation = Phys.radiansOf pi d →
      (Phys.snapToNearestRotation pi o).orientation =
        Phys.radiansOf pi
          ⟨((Phys.cround (d.x / 90) : ℤ) : α) * 90,
           ((Phys.cround (d.y / 90) : ℤ) : α) * 90,
           ((Phys.cround (d.z / 90) : ℤ) : α) * 90⟩ := by
    intro o d hd
    simp only [Phys.snapToNearestRotation, hd, degreesOf_radiansOf hpi]
  refine ⟨key, fun o hd => ?_⟩
  rw [key o ⟨44, 91, 179⟩ hd]
  have hx : Phys.cround ((44:α) / 90) = 0 :=
    cround_eq_of_bounds _ 0 (by norm_num) (by norm_num) (by norm_num)
  have hy : Phys.cround ((91:α) / 90) = 1 :=
    cround_eq_of_bounds _ 1 (by norm_num) (by norm_num) (by norm_num)
  have hz : Phys.cround ((179:α) / 90) = 2 :=
    cround_eq_of_bounds _ 2 (by norm_num) (by norm_num) (by norm_num)
  rw [hx, hy, hz]
  norm_num

/-- Witness for C7 at `α = ℚ`, `pi = 3`: a die whose orientation is
`radiansOf 3 (44, 91, 179)` snaps to `radiansOf 3 (0, 90, 180)`. -/
theorem snap_to_nearest_90_witness :
    ((3:ℚ) ≠ 0) ∧
    snapDie.orientation = Phys.radiansOf (3:ℚ) ⟨44, 91, 179⟩ ∧
    (Phys.snapToNearestRotation (3:ℚ) snapDie).orientation
      = Phys.radiansOf (3:ℚ) ⟨0, 90, 180⟩ :=
  ⟨by norm_num, rfl, (snap_to_nearest_90 3 (by norm_num)).2 snapDie rfl⟩

/-- Claim C10: an object whose `isMoving` flag is false is never mutated by
the per-frame physics loop — neither the integration step nor the collision
policy runs — over any sequence of frames (each frame being a `throwDice`
flag and a `dt`).  In particular, once rest detection clears `isMoving`, the
physics loop never again changes that object's position, orientation,
velocity, or angular velocity. -/
theorem resting_object_never_mutated [FloorRing α] (pi : α)
    (o : Phys.Object3D α) (h : o.isMoving = false) (frames : List (Bool × α)) :
    frames.foldl (fun s p => Phys.frameStep pi p.1 p.2 s) o = o := by
  induction frames with
  | nil => rfl
  | cons f fs ih =>
    have h1 : Phys.frameStep pi f.1 f.2 o = o := by
      simp [Phys.frameStep, h]
    simp only [List.foldl_cons, h1, ih]

/-- Witness for C10: a resting die is unchanged by two frames
(one with `throwDice = true`, one without). -/
theorem resting_object_never_mutated_witness :
    restingDie.isMoving = false ∧
    ([(true, (1:ℚ)), (false, 1/2)].foldl
        (fun s p => Phys.frameStep (3:ℚ) p.1 p.2 s) restingDie) = restingDie :=
  ⟨rfl, resting_object_never_mutated 3 restingDie rfl [(true, 1), (false, 1/2)]⟩

end ClaimPhysics

section ClaimScene

variable {μ τ ν σ : Type}

/-- Claim C8: `getChild(index)` fails deterministically with an out-of-range
error exactly when `index ≥ numberOfChildren()`, and otherwise returns the
index-th child in insertion order (never a default, null, or clamped child);
`addChild` appends at the end of the child list, so indices follow insertion
order. -/
theorem getChild_spec (o : Scene.Object3D μ τ) (index : ℕ) :
    (o.getChild index
      = match o.children.get? index with
        | some c => Except.ok c
        | none => Except.error "Object3D::getChild: index out of range") ∧
    ((∃ c, o.getChild index = Except.ok c) ↔ index < o.numberOfChildren) ∧
    (∀ child : Scene.Object3D μ τ,
      (o.addChild child).children.get? o.numberOfChildren = some child) := by
  refine ⟨?_, ?_, ?_⟩
  · unfold Scene.Object3D.getChild
    split_ifs with h
    · rw [List.get?_eq_get h]
    · rw [List.get?_eq_none.mpr (not_lt.mp h)]
  · unfold Scene.Object3D.getChild
    split_ifs with h
    · exact ⟨fun _ => h, fun _ => ⟨_, rfl⟩⟩
    · constructor
      · rintro ⟨c, hc⟩
        cases hc
      · intro hlt
        exact absurd hlt h
  · intro child
    show (o.children ++ [child]).get? o.children.length = some child
    exact List.get?_concat_length o.children child

/-- Claim C9: `assimpLoad` fails with an error carrying the importer's
diagnostic string exactly when the importer produces no scene; otherwise it
returns the fully processed `Object3D` tree (the recursive conversion of the
scene's root node) without throwing. -/
theorem assimpLoad_spec (errorString : String)
    (fromMesh : μ → ν) (fromTransform : τ → σ) :
    (∀ readFile : Option (Scene.AiScene μ τ),
      (∃ msg : String,
          Scene.assimpLoad readFile errorString fromMesh fromTransform
            = Except.error msg) ↔ readFile = none) ∧
    (Scene.assimpLoad (none : Option (Scene.AiScene μ τ)) errorString
        fromMesh fromTransform
      = Except.error ("Error loading assimp file: " ++ errorString)) ∧
    (∀ scene : Scene.AiScene μ τ,
      Scene.assimpLoad (some scene) errorString fromMesh fromTransform
        = Except.ok (Scene.processAssimpNode fromMesh fromTransform scene.root)) := by
  refine ⟨?_, rfl, fun scene => rfl⟩
  intro readFile
  cases readFile with
  | none => exact ⟨fun _ => rfl, fun _ => ⟨_, rfl⟩⟩
  | some s =>
    constructor
    · rintro ⟨msg, hmsg⟩
      cases hmsg
    · intro h
      cases h

end ClaimScene

end CasinoRender
